import Mathlib

/-!
Verification of the hivemind-devvit quiz pipeline.

This file gives a shallow embedding of the server core of the repository
(src/server/core/quiz.ts, src/server/core/quizCache.ts, the /api/quiz route of
src/server/index.ts, and src/shared/types/api.ts) and proves the frozen claims
about it.

Modelling conventions, used throughout:
- JavaScript strings are Lean String values; the character-count of a string is
  String.length.
- The results of network calls (the Devvit Reddit API: fetchSubredditPosts and
  fetchPostComments) are oracle inputs: a list of posts and a comments map.
  A comments map is a total function from post id to comment list; the source
  builds a Map that is read with a default of the empty list (commentsMap.get(id)
  with a fallback of the empty array), and only stores nonempty lists, so an
  absent entry and an empty entry are indistinguishable, which the function
  model captures exactly.
- Fields of posts, comments and questions that no verified code path reads
  (media, preview, image and video urls, score, num_comments and the moderation
  flags consumed upstream inside the network fetch) are omitted from the
  records; enrichPostsWithVideoUrls only rewrites those omitted media fields
  and preserves list order, so it is the identity on this model.
- Fallible JavaScript code (throw / try-catch) is modelled with Except; the
  redis store is a function from key to stored value, with write failure made
  explicit as a boolean outcome oracle.
-/

/-- characters removed by the JavaScript string trim operation (the whitespace
characters that can occur in the ids and names this repository handles). -/
def isJsSpace (c : Char) : Bool :=
  c = ' ' || c = '\t' || c = '\n' || c = '\r'

/-- trimChars removes leading and trailing whitespace from a character list:
drop the leading run, reverse, drop the (now leading) trailing run, reverse. -/
def trimChars (l : List Char) : List Char :=
  ((l.dropWhile isJsSpace).reverse.dropWhile isJsSpace).reverse

/-- jsTrim models the JavaScript trim method on strings. -/
def jsTrim (s : String) : String :=
  ⟨trimChars s.data⟩

/-- charsLead pat l is true when pat is an initial segment of l. -/
def charsLead : List Char → List Char → Bool
  | [], _ => true
  | _ :: _, [] => false
  | p :: ps, c :: cs => p = c && charsLead ps cs

/-- strLead models the JavaScript startsWith method: strLead s pat is true when
s starts with pat. -/
def strLead (s pat : String) : Bool :=
  charsLead pat.data s.data

/-- charsHave pat l is true when pat occurs as a contiguous segment of l. -/
def charsHave (pat : List Char) : List Char → Bool
  | [] => pat.isEmpty
  | c :: cs => charsLead pat (c :: cs) || charsHave pat cs

/-- strHas models the JavaScript includes method: strHas s pat is true when pat
occurs inside s. -/
def strHas (s pat : String) : Bool :=
  charsHave pat.data s.data

/-- a comment as consumed by the quiz pipeline (the data part of the
RedditComment type of src/server/core/quiz.ts restricted to the fields the
verified code reads: id, body, ups, author). -/
structure RComment where
  id : String
  body : String
  ups : Int
  author : Option String
deriving DecidableEq

/-- a post as consumed by the quiz pipeline (the data part of the RedditPost
type of src/server/core/quiz.ts restricted to the fields the verified code
reads: id, title, selftext, url, author, permalink). -/
structure RPost where
  id : String
  title : String
  selftext : String
  url : String
  author : Option String
  permalink : String
deriving DecidableEq

/-- the comments map built by fetchQuizData and getReplacementQuestion: post id
to the comments fetched for that post. An absent Map entry is read as the empty
list in the source, so the map is total here. -/
def CommentsMap : Type := String → List RComment

/-- QuizComment from src/shared/types/api.ts (the optional gifUrl field is
never written by the server code and is omitted). -/
structure QuizComment where
  id : String
  body : String
  ups : Int
  author : Option String
deriving DecidableEq

/-- QuizQuestion from src/shared/types/api.ts, restricted to the fields the
verified code paths construct and read (media url fields omitted, see the
header comment). selftext and url are conditionally spread in the source
(present only when the string is nonempty), hence Option here. -/
structure QuizQuestion where
  postId : String
  title : String
  selftext : Option String
  url : Option String
  author : Option String
  permalink : String
  comments : List QuizComment
deriving DecidableEq

/-- hasClearWinner from src/server/core/quiz.ts lines 373 to 377: require at
least 3 comments and the first comment to have strictly more ups than the
second (the destructured first and second elements are non-null exactly when
the length guard passes). -/
def hasClearWinner (comments : List RComment) : Bool :=
  if comments.length < 3 then false
  else
    match comments with
    | first :: second :: _ => decide (second.ups < first.ups)
    | _ => false

/-- the disqualification test shared verbatim by getContentLength and the loop
of transformToQuizFormat: comments.length < 3 or no clear winner. -/
def failsQualification (comments : List RComment) : Bool :=
  decide (comments.length < 3) || !hasClearWinner comments

/-- getContentLength from src/server/core/quiz.ts lines 383 to 392: total
character length of title plus selftext plus the top 3 comment bodies, and
none (standing for the JavaScript POSITIVE_INFINITY) when the post does not
qualify. -/
def getContentLength (post : RPost) (cm : CommentsMap) : Option Nat :=
  let comments := cm post.id
  if failsQualification comments then none
  else
    some (post.title.length + post.selftext.length
      + ((comments.take 3).map (fun c => c.body.length)).sum)

/-- the question record built inside the loop of transformToQuizFormat
(src/server/core/quiz.ts lines 413 to 433) for a post and its comment list. -/
def toQuizQuestion (post : RPost) (comments : List RComment) : QuizQuestion :=
  { postId := post.id
    title := post.title
    selftext := if post.selftext = "" then none else some post.selftext
    url := if post.url = "" then none else some post.url
    author := post.author
    permalink :=
      if strLead post.permalink "http" then post.permalink
      else "https://www.reddit.com" ++ post.permalink
    comments := (comments.take 3).map (fun c =>
      { id := c.id, body := c.body, ups := c.ups, author := c.author }) }

/-- the loop of transformToQuizFormat: walk the posts, skip disqualified ones,
push a question for each qualifying one, and stop as soon as 5 questions have
been pushed. The counter k is the number of questions already pushed. -/
def transformToQuizFormatGo (cm : CommentsMap) : List RPost → Nat → List QuizQuestion
  | [], _ => []
  | p :: ps, k =>
    let comments := cm p.id
    if failsQualification comments then transformToQuizFormatGo cm ps k
    else if 5 ≤ k + 1 then [toQuizQuestion p comments]
    else toQuizQuestion p comments :: transformToQuizFormatGo cm ps (k + 1)

/-- transformToQuizFormat from src/server/core/quiz.ts lines 398 to 440. -/
def transformToQuizFormat (posts : List RPost) (cm : CommentsMap) : List QuizQuestion :=
  transformToQuizFormatGo cm posts 0

/-- the order induced by the sort comparator of fetchQuizData and
getReplacementQuestion, namely subtraction of getContentLength values, with
none playing POSITIVE_INFINITY: a finite value is below everything, two
infinite values compare equal (the NaN produced by subtracting infinities is
treated as zero by the ECMAScript sort). -/
def clenLe : Option Nat → Option Nat → Bool
  | some a, some b => decide (a ≤ b)
  | some _, none => true
  | none, some _ => false
  | none, none => true

/-- the comparator of src/server/core/quiz.ts lines 519 to 521 as a binary
relation on posts. -/
def postLe (cm : CommentsMap) (a b : RPost) : Prop :=
  clenLe (getContentLength a cm) (getContentLength b cm) = true

instance (cm : CommentsMap) : DecidableRel (postLe cm) := fun _ _ =>
  decEq _ _

/-- the sortedPosts step of fetchQuizData and getReplacementQuestion: the
ECMAScript sort is required to be stable, and with this total preorder any
stable sort computes the same list; it is modelled by insertion sort. -/
def sortPosts (posts : List RPost) (cm : CommentsMap) : List RPost :=
  List.insertionSort (postLe cm) posts

/-- the pure tail of fetchQuizData (src/server/core/quiz.ts lines 518 to 523):
sort the fetched posts by content length and transform them into at most 5
questions (enrichPostsWithVideoUrls is the identity on the modelled fields). -/
def selectQuizQuestions (posts : List RPost) (cm : CommentsMap) : List QuizQuestion :=
  transformToQuizFormat (sortPosts posts cm) cm

/-- getReplacementQuestion from src/server/core/quiz.ts lines 446 to 472, with
the fetched posts and comments as oracle inputs: drop the excluded post ids
(trimmed, empty entries discarded), bail out on an empty remainder, then run
the same sort-and-transform pipeline and take the first question. -/
def getReplacementQuestion (posts : List RPost) (cm : CommentsMap)
    (excludePostIds : List String) : Option QuizQuestion :=
  let excludeSet := (excludePostIds.map jsTrim).filter (fun s => s != "")
  let posts2 := posts.filter (fun p => !excludeSet.contains p.id)
  if posts2.isEmpty then none
  else (transformToQuizFormat (sortPosts posts2 cm) cm).head?

/-- fetchQuizData from src/server/core/quiz.ts lines 480 to 534, with the
fetched posts and comments as oracle inputs (posts is the filtered result of
fetchSubredditPosts, and comment-fetch failures are already the empty list in
cm, as the catch handler of the source maps them). The source throws on an
empty post list and when fewer than 5 questions qualify; those throws are the
error branches here, with the message strings of the source. -/
def fetchQuizData (subreddit : String) (posts : List RPost) (cm : CommentsMap) :
    Except String (List QuizQuestion) :=
  if posts.isEmpty then
    .error ("No posts found in r/" ++ subreddit
      ++ ". The subreddit may not exist, may be private, or may not have any posts.")
  else
    let quizQuestions := selectQuizQuestions posts cm
    if quizQuestions.length < 5 then
      .error (if quizQuestions.length = 0 then
          "Could not generate quiz questions for r/" ++ subreddit
            ++ ". Posts may be filtered out (NSFW, stickied, mod, locked, crosspost) or lack enough comments with a clear top answer."
        else
          "Could not find 5 qualifying questions for r/" ++ subreddit
            ++ ". Only " ++ Nat.repr quizQuestions.length
            ++ " passed filters (NSFW/stickied/mod/locked/crosspost/clear-winner). Try another subreddit or time.")
    else .ok quizQuestions

/-! ### Properties of the string helpers -/

theorem dropWhile_head?_false {α : Type} (p : α → Bool) :
    ∀ (l : List α) (c : α), (l.dropWhile p).head? = some c → p c = false := by
  intro l
  induction l with
  | nil => intro c h; simp [List.dropWhile] at h
  | cons a t ih =>
    intro c h
    by_cases ha : p a
    · exact ih c (by simpa [List.dropWhile, ha] using h)
    · simp [List.dropWhile, ha] at h
      simp [h ▸ ha]

theorem exists_append_dropWhile {α : Type} (p : α → Bool) :
    ∀ l : List α, ∃ u, l = u ++ l.dropWhile p := by
  intro l
  induction l with
  | nil => exact ⟨[], rfl⟩
  | cons a t ih =>
    by_cases ha : p a
    · obtain ⟨u, hu⟩ := ih
      exact ⟨a :: u, by simpa [List.dropWhile, ha] using congrArg (a :: ·) hu⟩
    · exact ⟨[], by simp [List.dropWhile, ha]⟩

theorem dropWhile_eq_self_of_head {α : Type} (p : α → Bool) (l : List α)
    (h : ∀ c, l.head? = some c → p c = false) : l.dropWhile p = l := by
  cases l with
  | nil => rfl
  | cons a t => simp [List.dropWhile, h a rfl]

theorem dropWhile_dropWhile {α : Type} (p : α → Bool) (l : List α) :
    (l.dropWhile p).dropWhile p = l.dropWhile p :=
  dropWhile_eq_self_of_head p _ (fun c hc => dropWhile_head?_false p l c hc)

theorem trimChars_head (l : List Char) (c : Char)
    (h : (trimChars l).head? = some c) : isJsSpace c = false := by
  obtain ⟨u, hu⟩ := exists_append_dropWhile isJsSpace (l.dropWhile isJsSpace).reverse
  have hA : l.dropWhile isJsSpace
      = ((l.dropWhile isJsSpace).reverse.dropWhile isJsSpace).reverse ++ u.reverse := by
    have := congrArg List.reverse hu
    simpa using this
  have hhead : (l.dropWhile isJsSpace).head? = some c := by
    rw [hA]
    have hne : ((l.dropWhile isJsSpace).reverse.dropWhile isJsSpace).reverse ≠ [] := by
      intro hnil
      simp [trimChars, hnil] at h
    cases hB : ((l.dropWhile isJsSpace).reverse.dropWhile isJsSpace).reverse with
    | nil => exact absurd hB hne
    | cons b bs =>
      have : b = c := by
        have := h
        simp [trimChars, hB] at this
        exact this
      simp [this]
  exact dropWhile_head?_false isJsSpace l c hhead

theorem trimChars_idem (l : List Char) : trimChars (trimChars l) = trimChars l := by
  have h1 : (trimChars l).dropWhile isJsSpace = trimChars l :=
    dropWhile_eq_self_of_head _ _ (fun c hc => trimChars_head l c hc)
  show ((((trimChars l).dropWhile isJsSpace).reverse).dropWhile isJsSpace).reverse = trimChars l
  rw [h1]
  have h2 : (trimChars l).reverse = (l.dropWhile isJsSpace).reverse.dropWhile isJsSpace := by
    simp [trimChars]
  rw [h2, dropWhile_dropWhile]
  simp [trimChars]

theorem jsTrim_idem (s : String) : jsTrim (jsTrim s) = jsTrim s := by
  simp [jsTrim, trimChars_idem]

theorem charsLead_append (pre s : List Char) : charsLead pre (pre ++ s) = true := by
  induction pre with
  | nil => rfl
  | cons a t ih => simp [charsLead, ih]

theorem strLead_append (pre s : String) : strLead (pre ++ s) pre = true := by
  have : (pre ++ s).data = pre.data ++ s.data := rfl
  simp [strLead, this, charsLead_append]

/-! ### Characterization of transformToQuizFormat -/

theorem transformToQuizFormatGo_eq (cm : CommentsMap) :
    ∀ (l : List RPost) (k : Nat), k < 5 →
    transformToQuizFormatGo cm l k
      = ((l.filter (fun p => !failsQualification (cm p.id))).map
          (fun p => toQuizQuestion p (cm p.id))).take (5 - k) := by
  intro l
  induction l with
  | nil => intro k _; simp [transformToQuizFormatGo]
  | cons p ps ih =>
    intro k hk
    by_cases hf : failsQualification (cm p.id)
    · simp [transformToQuizFormatGo, hf, ih k hk, List.filter_cons]
    · by_cases h5 : 5 ≤ k + 1
      · have hk4 : k = 4 := by omega
        subst hk4
        simp [transformToQuizFormatGo, hf, h5, List.filter_cons]
      · have hk1 : k + 1 < 5 := by omega
        have h54 : 5 - k = (5 - (k + 1)) + 1 := by omega
        simp [transformToQuizFormatGo, hf, h5, List.filter_cons, ih (k + 1) hk1, h54,
          List.take_succ_cons]

theorem transformToQuizFormat_eq (posts : List RPost) (cm : CommentsMap) :
    transformToQuizFormat posts cm
      = ((posts.filter (fun p => !failsQualification (cm p.id))).map
          (fun p => toQuizQuestion p (cm p.id))).take 5 := by
  simpa [transformToQuizFormat] using transformToQuizFormatGo_eq cm posts 0 (by omega)

theorem transformToQuizFormat_length_le (posts : List RPost) (cm : CommentsMap) :
    (transformToQuizFormat posts cm).length ≤ 5 := by
  rw [transformToQuizFormat_eq]
  exact le_trans (List.length_take_le _ _) (le_refl 5)

theorem mem_transformToQuizFormat {q : QuizQuestion} {posts : List RPost} {cm : CommentsMap}
    (h : q ∈ transformToQuizFormat posts cm) :
    ∃ p, p ∈ posts ∧ failsQualification (cm p.id) = false ∧ q = toQuizQuestion p (cm p.id) := by
  rw [transformToQuizFormat_eq] at h
  have h2 : q ∈ (posts.filter (fun p => !failsQualification (cm p.id))).map
      (fun p => toQuizQuestion p (cm p.id)) := (List.take_sublist _ _).mem h
  obtain ⟨p, hp, hq⟩ := List.mem_map.mp h2
  obtain ⟨hp1, hp2⟩ := List.mem_filter.mp hp
  exact ⟨p, hp1, by simpa using hp2, hq.symm⟩

/-- the shape every emitted question has: exactly three comments, with the
first strictly above the second in ups. -/
def goodQuestion (q : QuizQuestion) : Prop :=
  q.comments.length = 3 ∧ ∃ a b c, q.comments = [a, b, c] ∧ b.ups < a.ups

theorem failsQualification_false_shape {comments : List RComment}
    (h : failsQualification comments = false) :
    ∃ a b c rest, comments = a :: b :: c :: rest ∧ b.ups < a.ups := by
  have h3 : ¬ comments.length < 3 := by
    intro hlt
    simp [failsQualification, hlt] at h
  have hw : hasClearWinner comments = true := by
    rcases hhw : hasClearWinner comments
    · simp [failsQualification, hhw] at h
    · rfl
  rcases comments with _ | ⟨a, _ | ⟨b, _ | ⟨c, rest⟩⟩⟩
  · simp at h3
  · simp at h3
  · simp at h3
  · refine ⟨a, b, c, rest, rfl, ?_⟩
    have hlen : ¬ ((a :: b :: c :: rest).length < 3) := by simp
    simp only [hasClearWinner, if_neg hlen] at hw
    exact of_decide_eq_true hw

theorem goodQuestion_toQuizQuestion {p : RPost} {comments : List RComment}
    (h : failsQualification comments = false) : goodQuestion (toQuizQuestion p comments) := by
  obtain ⟨a, b, c, rest, hc, hups⟩ := failsQualification_false_shape h
  subst hc
  refine ⟨by simp [toQuizQuestion], ?_⟩
  refine ⟨⟨a.id, a.body, a.ups, a.author⟩, ⟨b.id, b.body, b.ups, b.author⟩,
    ⟨c.id, c.body, c.ups, c.author⟩, ?_, hups⟩
  simp [toQuizQuestion, List.take]

/-! ### The content-length order -/

theorem clenLe_total (x y : Option Nat) : clenLe x y = true ∨ clenLe y x = true := by
  cases x <;> cases y <;> simp [clenLe] <;> omega

theorem clenLe_trans {x y z : Option Nat}
    (h1 : clenLe x y = true) (h2 : clenLe y z = true) : clenLe x z = true := by
  cases x <;> cases y <;> cases z <;> simp [clenLe] at * <;> omega

instance (cm : CommentsMap) : IsTotal RPost (postLe cm) :=
  ⟨fun a b => clenLe_total (getContentLength a cm) (getContentLength b cm)⟩

instance (cm : CommentsMap) : IsTrans RPost (postLe cm) :=
  ⟨fun _ _ _ h1 h2 => clenLe_trans h1 h2⟩

theorem sortPosts_perm (posts : List RPost) (cm : CommentsMap) :
    (sortPosts posts cm).Perm posts :=
  List.perm_insertionSort (postLe cm) posts

theorem sortPosts_pairwise (posts : List RPost) (cm : CommentsMap) :
    (sortPosts posts cm).Pairwise (postLe cm) :=
  List.sorted_insertionSort (postLe cm) posts

theorem getContentLength_none_of_fails {p : RPost} {cm : CommentsMap}
    (h : failsQualification (cm p.id) = true) : getContentLength p cm = none := by
  simp [getContentLength, h]

theorem fails_of_getContentLength_none {p : RPost} {cm : CommentsMap}
    (h : getContentLength p cm = none) : failsQualification (cm p.id) = true := by
  rcases hf : failsQualification (cm p.id)
  · simp [getContentLength, hf] at h
  · rfl

/-! ### Example data used by the witnesses -/

def exCommentA : RComment := ⟨"c1", "Great answer", 10, some "alice"⟩

def exCommentB : RComment := ⟨"c2", "Nice", 4, some "bob"⟩

def exCommentC : RComment := ⟨"c3", "ok", 2, none⟩

def exCommentTie : RComment := ⟨"c4", "tied", 4, none⟩

def exPost1 : RPost := ⟨"p1", "A title", "", "", some "op", "/r/test/comments/p1"⟩

def exPost2 : RPost := ⟨"p2", "Another title", "body", "", some "op2", "/r/test/comments/p2"⟩

/-- a comments map giving post p1 a qualifying comment list and post p2 a
tied-top-two list. -/
def exCm : CommentsMap := fun id =>
  if id = "p1" then [exCommentA, exCommentB, exCommentC]
  else if id = "p2" then [exCommentB, exCommentTie, exCommentC]
  else []

theorem failsQualification_of_bad {c : List RComment}
    (h : c.length < 3 ∨ ∃ a b rest, c = a :: b :: rest ∧ a.ups = b.ups) :
    failsQualification c = true := by
  rcases h with h | ⟨a, b, rest, hc, hups⟩
  · simp [failsQualification, h]
  · subst hc
    by_cases hlen : (a :: b :: rest).length < 3
    · simp [failsQualification]
      left
      simpa using hlen
    · have hw : hasClearWinner (a :: b :: rest) = false := by
        simp only [hasClearWinner, if_neg hlen]
        simp [hups]
      simp [failsQualification, hw]

/-- C1: for every input list of posts and comments map, every QuizQuestion in
the output of transformToQuizFormat has exactly 3 comments and its first
comment has strictly more upvotes than its second, the output has length at
most 5, and a post whose comment list has fewer than 3 entries or a tied top
two never contributes a question. -/
theorem claim1_quiz_shape :
    (∀ (posts : List RPost) (cm : CommentsMap), (transformToQuizFormat posts cm).length ≤ 5)
    ∧ (∀ (posts : List RPost) (cm : CommentsMap) (q : QuizQuestion),
        q ∈ transformToQuizFormat posts cm →
        q.comments.length = 3 ∧ ∃ a b c, q.comments = [a, b, c] ∧ b.ups < a.ups)
    ∧ (∀ (posts : List RPost) (cm : CommentsMap) (p : RPost),
        ((cm p.id).length < 3 ∨ ∃ a b rest, cm p.id = a :: b :: rest ∧ a.ups = b.ups) →
        p.id ∉ (transformToQuizFormat posts cm).map (fun q => q.postId)) := by
  refine ⟨fun posts cm => transformToQuizFormat_length_le posts cm, ?_, ?_⟩
  · intro posts cm q hq
    obtain ⟨p, _, hfail, rfl⟩ := mem_transformToQuizFormat hq
    exact goodQuestion_toQuizQuestion hfail
  · intro posts cm p hbad hmem
    obtain ⟨q, hq, hid⟩ := List.mem_map.mp hmem
    obtain ⟨p2, _, hfail, rfl⟩ := mem_transformToQuizFormat hq
    have hid2 : p2.id = p.id := hid
    rw [hid2] at hfail
    rw [failsQualification_of_bad hbad] at hfail
    exact Bool.true_eq_false.mp hfail

/-- witness for C1: a concrete qualifying post yields a well-shaped question,
and a concrete tied post is excluded. -/
theorem claim1_witness :
    (transformToQuizFormat [exPost1] exCm).length ≤ 5
    ∧ ((toQuizQuestion exPost1 (exCm "p1")).comments.length = 3
        ∧ ∃ a b c, (toQuizQuestion exPost1 (exCm "p1")).comments = [a, b, c] ∧ b.ups < a.ups)
    ∧ exPost2.id ∉ (transformToQuizFormat [exPost2] exCm).map (fun q => q.postId) :=
  ⟨claim1_quiz_shape.1 [exPost1] exCm,
   claim1_quiz_shape.2.1 [exPost1] exCm (toQuizQuestion exPost1 (exCm "p1")) (by decide),
   claim1_quiz_shape.2.2 [exPost2] exCm exPost2
     (Or.inr ⟨exCommentB, exCommentTie, [exCommentC], by decide, by decide⟩)⟩

/-- C2: quiz questions are chosen from qualifying posts in ascending order of
the content-length score (title plus selftext plus top 3 comment bodies), the
first 5 such posts in sorted order form the quiz, and a post that fails
qualification receives an infinite score (none), sorts after every qualifying
post, and is excluded. -/
theorem claim2_ranking :
    (∀ (p : RPost) (cm : CommentsMap), failsQualification (cm p.id) = true →
        getContentLength p cm = none)
    ∧ (∀ (p : RPost) (cm : CommentsMap), failsQualification (cm p.id) = false →
        getContentLength p cm
          = some (p.title.length + p.selftext.length
              + (((cm p.id).take 3).map (fun c => c.body.length)).sum))
    ∧ (∀ (posts : List RPost) (cm : CommentsMap),
        selectQuizQuestions posts cm
          = (((sortPosts posts cm).filter (fun p => !failsQualification (cm p.id))).take 5).map
              (fun p => toQuizQuestion p (cm p.id)))
    ∧ (∀ (posts : List RPost) (cm : CommentsMap), (sortPosts posts cm).Pairwise (postLe cm))
    ∧ (∀ (posts : List RPost) (cm : CommentsMap), (sortPosts posts cm).Pairwise
        (fun a b => getContentLength a cm = none → getContentLength b cm = none)) := by
  refine ⟨?_, ?_, ?_, sortPosts_pairwise, ?_⟩
  · intro p cm h
    exact getContentLength_none_of_fails h
  · intro p cm h
    simp [getContentLength, h]
  · intro posts cm
    rw [selectQuizQuestions, transformToQuizFormat_eq, List.map_take]
  · intro posts cm
    refine (sortPosts_pairwise posts cm).imp ?_
    intro a b hab hnone
    rcases hb : getContentLength b cm with _ | v
    · rfl
    · rw [postLe, hnone, hb] at hab
      simp [clenLe] at hab

/-- witness for C2: the tied post p2 scores none, and the qualifying post p1
scores its concrete character count. -/
theorem claim2_witness :
    getContentLength exPost2 exCm = none
    ∧ getContentLength exPost1 exCm
        = some (exPost1.title.length + exPost1.selftext.length
            + (((exCm exPost1.id).take 3).map (fun c => c.body.length)).sum) :=
  ⟨claim2_ranking.1 exPost2 exCm (by decide),
   claim2_ranking.2.1 exPost1 exCm (by decide)⟩

/-! ### Replacement of reported questions -/

theorem contains_eq_true_iff {l : List String} {a : String} :
    l.contains a = true ↔ a ∈ l :=
  List.elem_iff

theorem getReplacementQuestion_spec {posts : List RPost} {cm : CommentsMap}
    {ex : List String} {q : QuizQuestion}
    (h : getReplacementQuestion posts cm ex = some q) :
    goodQuestion q ∧ ∀ e ∈ ex, jsTrim e ≠ "" → q.postId ≠ jsTrim e := by
  simp only [getReplacementQuestion] at h
  by_cases hemp : (posts.filter
      (fun p => !((ex.map jsTrim).filter (fun s => s != "")).contains p.id)).isEmpty
  · rw [if_pos hemp] at h
    exact Option.noConfusion h
  · simp only [hemp, if_false, Bool.false_eq_true, if_neg] at h
    have hq : q ∈ transformToQuizFormat
        (sortPosts (posts.filter
          (fun p => !((ex.map jsTrim).filter (fun s => s != "")).contains p.id)) cm) cm :=
      List.mem_of_mem_head? h
    obtain ⟨p, hp, hfail, rfl⟩ := mem_transformToQuizFormat hq
    have hp2 : p ∈ posts.filter
        (fun p => !((ex.map jsTrim).filter (fun s => s != "")).contains p.id) :=
      (sortPosts_perm _ cm).mem_iff.mp hp
    obtain ⟨_, hpc⟩ := List.mem_filter.mp hp2
    refine ⟨goodQuestion_toQuizQuestion hfail, ?_⟩
    intro e he hne hcontra
    have hpid : (toQuizQuestion p (cm p.id)).postId = p.id := rfl
    rw [hpid] at hcontra
    rw [hcontra] at hpc
    simp at hpc
    rcases hpc with hall | hempty
    · exact hall e he rfl
    · exact hne hempty

/-- the in-place substitution loop of the /api/quiz handler
(src/server/index.ts, both the cached and the freshly fetched branch): walk the
quiz, and at each position whose post id is in the replaced list ask
getReplacementQuestion for a replacement, excluding every post id currently in
the quiz plus every replaced id; keep the original question when none is found.
The processed prefix pre and the unprocessed suffix together are the current
quizOut array of the source. -/
def substituteReplacedGo (posts : List RPost) (cm : CommentsMap) (replacedIds : List String) :
    List QuizQuestion → List QuizQuestion → List QuizQuestion
  | pre, [] => pre
  | pre, q :: rest =>
    if replacedIds.contains q.postId then
      match getReplacementQuestion posts cm
          (((pre ++ q :: rest).map (fun x => x.postId)) ++ replacedIds) with
      | some r => substituteReplacedGo posts cm replacedIds (pre ++ [r]) rest
      | none => substituteReplacedGo posts cm replacedIds (pre ++ [q]) rest
    else substituteReplacedGo posts cm replacedIds (pre ++ [q]) rest

/-- the full substitution pass applied to a quiz before it is served. -/
def substituteReplaced (posts : List RPost) (cm : CommentsMap) (replacedIds : List String)
    (quiz : List QuizQuestion) : List QuizQuestion :=
  substituteReplacedGo posts cm replacedIds [] quiz

/-- pointwise relation between an original question and what the substitution
loop emits at its position. -/
def subRel (replacedIds : List String) (q x : QuizQuestion) : Prop :=
  x = q ∨ (replacedIds.contains q.postId = true ∧ goodQuestion x
    ∧ ∀ e ∈ replacedIds, jsTrim e ≠ "" → x.postId ≠ jsTrim e)

theorem substituteReplacedGo_spec (posts : List RPost) (cm : CommentsMap)
    (replacedIds : List String) :
    ∀ (rest pre : List QuizQuestion), ∃ out,
      substituteReplacedGo posts cm replacedIds pre rest = pre ++ out
      ∧ List.Forall₂ (subRel replacedIds) rest out := by
  intro rest
  induction rest with
  | nil =>
    intro pre
    exact ⟨[], by simp [substituteReplacedGo], List.Forall₂.nil⟩
  | cons q rest ih =>
    intro pre
    by_cases hrep : replacedIds.contains q.postId = true
    · rcases hr : getReplacementQuestion posts cm
          (((pre ++ q :: rest).map (fun x => x.postId)) ++ replacedIds) with _ | r
      · obtain ⟨out, hout, hrel⟩ := ih (pre ++ [q])
        refine ⟨q :: out, ?_, List.Forall₂.cons (Or.inl rfl) hrel⟩
        simp only [substituteReplacedGo, hrep, if_true, hr]
        rw [hout]
        simp
      · obtain ⟨out, hout, hrel⟩ := ih (pre ++ [r])
        obtain ⟨hgood, hexcl⟩ := getReplacementQuestion_spec hr
        refine ⟨r :: out, ?_, List.Forall₂.cons
          (Or.inr ⟨hrep, hgood, fun e he hne =>
            hexcl e (List.mem_append_right _ he) hne⟩) hrel⟩
        simp only [substituteReplacedGo, hrep, if_true, hr]
        rw [hout]
        simp
    · have hrep2 : replacedIds.contains q.postId = false := by
        simpa using hrep
      obtain ⟨out, hout, hrel⟩ := ih (pre ++ [q])
      refine ⟨q :: out, ?_, List.Forall₂.cons (Or.inl rfl) hrel⟩
      simp only [substituteReplacedGo, hrep2]
      rw [if_neg (by simp), hout]
      simp

theorem substituteReplaced_forall₂ (posts : List RPost) (cm : CommentsMap)
    (replacedIds : List String) (quiz : List QuizQuestion) :
    List.Forall₂ (subRel replacedIds) quiz (substituteReplaced posts cm replacedIds quiz) := by
  obtain ⟨out, hout, hrel⟩ := substituteReplacedGo_spec posts cm replacedIds quiz []
  rw [substituteReplaced, hout]
  simpa using hrel

/-- C5: before a quiz is served, every question whose postId is in the
replaced list is substituted in place (the output has the same length, and a
question at a position whose post id is not replaced is left untouched); a
substituted question is a qualifying replacement whose post id avoids every id
in the exclusion list handed to getReplacementQuestion, which contains all
quiz ids and all replaced ids; when no replacement is found the original stays
and the pass still returns a quiz. -/
theorem claim5_substitution :
    (∀ (posts : List RPost) (cm : CommentsMap) (replacedIds : List String)
        (quiz : List QuizQuestion),
        (substituteReplaced posts cm replacedIds quiz).length = quiz.length
        ∧ List.Forall₂ (fun q x =>
            (q.postId ∉ replacedIds → x = q)
            ∧ (q.postId ∈ replacedIds → x = q ∨ (goodQuestion x
                ∧ ∀ e ∈ replacedIds, jsTrim e ≠ "" → x.postId ≠ jsTrim e)))
          quiz (substituteReplaced posts cm replacedIds quiz))
    ∧ (∀ (posts : List RPost) (cm : CommentsMap) (ex : List String) (q : QuizQuestion),
        getReplacementQuestion posts cm ex = some q →
        goodQuestion q ∧ ∀ e ∈ ex, jsTrim e ≠ "" → q.postId ≠ jsTrim e) := by
  refine ⟨?_, fun posts cm ex q h => getReplacementQuestion_spec h⟩
  intro posts cm replacedIds quiz
  have hf := substituteReplaced_forall₂ posts cm replacedIds quiz
  refine ⟨hf.length_eq.symm, hf.imp ?_⟩
  intro q x hs
  constructor
  · intro hnotin
    rcases hs with rfl | ⟨hc, _, _⟩
    · rfl
    · exact absurd (contains_eq_true_iff.mp hc) hnotin
  · intro _
    rcases hs with rfl | ⟨_, hg, he⟩
    · exact Or.inl rfl
    · exact Or.inr ⟨hg, he⟩

/-- a question whose post has been reported past the threshold, used in the
substitution witnesses. -/
def exBadQuestion : QuizQuestion :=
  ⟨"bad", "Bad question", none, none, none, "/r/test/comments/bad", []⟩

/-- witness for C5: a concrete substitution pass preserves length, and a
concrete successful replacement is qualifying and avoids the exclusions. -/
theorem claim5_witness :
    (substituteReplaced [exPost1] exCm ["bad"] [exBadQuestion]).length = 1
    ∧ (goodQuestion (toQuizQuestion exPost1 (exCm "p1"))
        ∧ ∀ e ∈ ["bad", "bad"], jsTrim e ≠ "" →
          (toQuizQuestion exPost1 (exCm "p1")).postId ≠ jsTrim e) :=
  ⟨(claim5_substitution.1 [exPost1] exCm ["bad"] [exBadQuestion]).1,
   claim5_substitution.2 [exPost1] exCm ["bad", "bad"] (toQuizQuestion exPost1 (exCm "p1"))
     (by decide)⟩

/-- counterexample to C6 as stated: when no replacement can be found (here the
replacement fetch has no posts at all), the substitution pass serves the
reported question unchanged, so a post id on the replaced list does appear in
a quiz served afterwards. -/
theorem claim6_counterexample :
    "bad" ∈ (substituteReplaced [] exCm ["bad"] [exBadQuestion]).map (fun q => q.postId) := by
  decide

/-- C6 (amended): a post id on the replaced list is never served except when
no qualifying replacement could be found for its position, in which case the
original question is knowingly left in place: every served question is either
the original one or has a post id outside the replaced list. The hypothesis
that replaced ids are trimmed and nonempty holds for every id the tracker
stores, since addPostToReplaced trims and drops empty ids. -/
theorem claim6_replaced_not_served :
    ∀ (posts : List RPost) (cm : CommentsMap) (replacedIds : List String)
      (quiz : List QuizQuestion),
      (∀ e ∈ replacedIds, jsTrim e = e ∧ e ≠ "") →
      List.Forall₂ (fun q x => x = q ∨ x.postId ∉ replacedIds)
        quiz (substituteReplaced posts cm replacedIds quiz) := by
  intro posts cm replacedIds quiz hrep
  refine (substituteReplaced_forall₂ posts cm replacedIds quiz).imp ?_
  intro q x hs
  rcases hs with rfl | ⟨_, _, hexcl⟩
  · exact Or.inl rfl
  · refine Or.inr ?_
    intro hmem
    obtain ⟨htrim, hne⟩ := hrep _ hmem
    have h1 : jsTrim x.postId ≠ "" := by rw [htrim]; exact hne
    exact hexcl x.postId hmem h1 (by rw [htrim])

/-- witness for C6 (amended): a concrete run where the reported question gets
replaced by a fresh one whose id is off the replaced list. -/
theorem claim6_witness :
    List.Forall₂ (fun q x => x = q ∨ x.postId ∉ ["bad"])
      [exBadQuestion] (substituteReplaced [exPost1] exCm ["bad"] [exBadQuestion]) :=
  claim6_replaced_not_served [exPost1] exCm ["bad"] [exBadQuestion] (by decide)

/-! ### Error classification and fetchQuizData -/

theorem strData_append (a b : String) : (a ++ b).data = a.data ++ b.data := by
  cases a
  cases b
  rfl

theorem charsHave_append_right (pat b : List Char) :
    ∀ a : List Char, charsHave pat b = true → charsHave pat (a ++ b) = true := by
  intro a
  induction a with
  | nil => intro h; simpa using h
  | cons c t ih => intro h; simp [charsHave, ih h]

theorem charsLead_extend {pat : List Char} (y : List Char) :
    ∀ {x : List Char}, charsLead pat x = true → charsLead pat (x ++ y) = true := by
  induction pat with
  | nil => intro x _; rfl
  | cons p ps ih =>
    intro x h
    cases x with
    | nil => simp [charsLead] at h
    | cons c cs =>
      simp [charsLead] at h ⊢
      exact ⟨h.1, ih h.2⟩

theorem charsHave_of_charsLead {pat l : List Char} (h : charsLead pat l = true) :
    charsHave pat l = true := by
  cases l with
  | nil =>
    cases pat with
    | nil => rfl
    | cons p ps => simp [charsLead] at h
  | cons c cs => simp [charsHave, h]

theorem strHas_append_of_right {b : String} (a : String) {pat : String}
    (h : strHas b pat = true) : strHas (a ++ b) pat = true := by
  show charsHave pat.data ((a ++ b).data) = true
  rw [strData_append]
  exact charsHave_append_right _ _ _ h

theorem strLead_append_left {a : String} (b : String) {pat : String}
    (h : strLead a pat = true) : strLead (a ++ b) pat = true := by
  show charsLead pat.data ((a ++ b).data) = true
  rw [strData_append]
  exact charsLead_extend _ h

theorem strHas_append_of_left {a : String} (b : String) {pat : String}
    (h : strLead a pat = true) : strHas (a ++ b) pat = true := by
  show charsHave pat.data ((a ++ b).data) = true
  rw [strData_append]
  exact charsHave_of_charsLead (charsLead_extend _ h)

/-- the unavailable-class test of the /api/quiz handler (src/server/index.ts):
an error message counts as unavailable when it includes any of these
fragments. -/
def isUnavailableMessage (msg : String) : Bool :=
  strHas msg "not found" || strHas msg "does not exist" || strHas msg "404"
    || strHas msg "403" || strHas msg "Forbidden" || strHas msg "banned"
    || strHas msg "private" || strHas msg "restricted"
    || strHas msg "Could not find 5 qualifying"
    || strHas msg "Could not generate quiz questions"

/-- C3: when fewer than 5 posts qualify, the selection function
(transformToQuizFormat, run on the sorted posts) does not fail: it is total
and returns exactly the fewer-than-5 qualifying questions it found (possibly
none); and the caller fetchQuizData turns that outcome into an error message
that the orchestrating /api/quiz handler classifies as unavailable, the
recoverable insufficient-data condition (skip-and-continue in rotation mode),
rather than crashing. -/
theorem claim3_fewer_than_five :
    (∀ (posts : List RPost) (cm : CommentsMap),
        (selectQuizQuestions posts cm).length < 5 →
        selectQuizQuestions posts cm
          = ((sortPosts posts cm).filter (fun p => !failsQualification (cm p.id))).map
              (fun p => toQuizQuestion p (cm p.id)))
    ∧ (∀ (subreddit : String) (posts : List RPost) (cm : CommentsMap),
        (selectQuizQuestions posts cm).length < 5 →
        ∃ msg, fetchQuizData subreddit posts cm = .error msg
          ∧ isUnavailableMessage msg = true) := by
  constructor
  · intro posts cm hlt
    rw [selectQuizQuestions, transformToQuizFormat_eq] at hlt ⊢
    have hlen : (((sortPosts posts cm).filter
        (fun p => !failsQualification (cm p.id))).map
          (fun p => toQuizQuestion p (cm p.id))).length < 5 := by
      rw [List.length_take] at hlt
      omega
    exact List.take_of_length_le (le_of_lt hlen)
  · intro s posts cm hlt
    by_cases hp : posts.isEmpty
    · refine ⟨"No posts found in r/" ++ s
        ++ ". The subreddit may not exist, may be private, or may not have any posts.",
        ?_, ?_⟩
      · simp only [fetchQuizData]
        rw [if_pos hp]
      · have h7 : strHas ("No posts found in r/" ++ s
            ++ ". The subreddit may not exist, may be private, or may not have any posts.")
            "private" = true :=
          strHas_append_of_right _ (by decide)
        simp [isUnavailableMessage, h7]
    · by_cases h0 : (selectQuizQuestions posts cm).length = 0
      · refine ⟨"Could not generate quiz questions for r/" ++ s
          ++ ". Posts may be filtered out (NSFW, stickied, mod, locked, crosspost) or lack enough comments with a clear top answer.",
          ?_, ?_⟩
        · simp only [fetchQuizData]
          rw [if_neg hp, if_pos hlt, if_pos h0]
        · have hlead : strHas ("Could not generate quiz questions for r/" ++ s
              ++ ". Posts may be filtered out (NSFW, stickied, mod, locked, crosspost) or lack enough comments with a clear top answer.")
              "Could not generate quiz questions" = true :=
            strHas_append_of_left _ (strLead_append_left _ (by decide))
          simp [isUnavailableMessage, hlead]
      · refine ⟨"Could not find 5 qualifying questions for r/" ++ s
          ++ ". Only " ++ Nat.repr (selectQuizQuestions posts cm).length
          ++ " passed filters (NSFW/stickied/mod/locked/crosspost/clear-winner). Try another subreddit or time.",
          ?_, ?_⟩
        · simp only [fetchQuizData]
          rw [if_neg hp, if_pos hlt, if_neg h0]
        · have hlead : strHas ("Could not find 5 qualifying questions for r/" ++ s
              ++ ". Only " ++ Nat.repr (selectQuizQuestions posts cm).length
              ++ " passed filters (NSFW/stickied/mod/locked/crosspost/clear-winner). Try another subreddit or time.")
              "Could not find 5 qualifying" = true :=
            strHas_append_of_left _ (strLead_append_left _ (strLead_append_left _
              (strLead_append_left _ (by decide))))
          simp [isUnavailableMessage, hlead]

/-- witness for C3: one qualifying post only, so the selection returns its
single question and fetchQuizData reports an unavailable-classified error. -/
theorem claim3_witness :
    selectQuizQuestions [exPost1] exCm
      = ((sortPosts [exPost1] exCm).filter (fun p => !failsQualification (exCm p.id))).map
          (fun p => toQuizQuestion p (exCm p.id))
    ∧ ∃ msg, fetchQuizData "test" [exPost1] exCm = .error msg
        ∧ isUnavailableMessage msg = true :=
  ⟨claim3_fewer_than_five.1 [exPost1] exCm (by decide),
   claim3_fewer_than_five.2 "test" [exPost1] exCm (by decide)⟩

/-! ### The moderation and report tracker (src/server/core/quizCache.ts) -/

/-- the redis state the report tracker owns: the per-post reporter lists
(the report:POSTID keys) and the replaced_posts list. -/
structure ReportState where
  reports : String → List String
  replaced : List String

/-- the state of a fresh store: no reports, nothing replaced. -/
def initReportState : ReportState := ⟨fun _ => [], []⟩

/-- addPostToReplaced from src/server/core/quizCache.ts: trim the id, ignore
empty ids and ids already present, otherwise append. -/
def addPostToReplaced (st : ReportState) (postId : String) : ReportState :=
  let normalized := jsTrim postId
  if normalized = "" then st
  else if st.replaced.contains normalized then st
  else { st with replaced := st.replaced ++ [normalized] }

/-- the shared push path of incrementReportCount: store the grown reporter
list, add the post to the replaced list when the count reaches the threshold
of 3, and return the new count. -/
def pushReporter (st : ReportState) (normalized : String) (list : List String)
    (id : String) : ReportState × Nat :=
  let list2 := list ++ [id]
  let st2 : ReportState :=
    { st with reports := fun x => if x = normalized then list2 else st.reports x }
  (if 3 ≤ list2.length then addPostToReplaced st2 normalized else st2, list2.length)

/-- incrementReportCount from src/server/core/quizCache.ts: trim the post id
(empty means no-op returning 0); resolve the reporter id to its trimmed value
when present and nonempty, otherwise to a generated anonymous id built from
the __anon_ marker and a fresh suffix (the Date.now and Math.random part is
the anonSuffix oracle); anonymous-marked ids are always appended, other ids
are deduplicated against the stored list. -/
def incrementReportCount (st : ReportState) (postId : String) (reporterId : Option String)
    (anonSuffix : String) : ReportState × Nat :=
  let normalized := jsTrim postId
  if normalized = "" then (st, 0)
  else
    let list := st.reports normalized
    let id := match reporterId with
      | some r => if jsTrim r != "" then jsTrim r else "__anon_" ++ anonSuffix
      | none => "__anon_" ++ anonSuffix
    if strLead id "__anon_" then pushReporter st normalized list id
    else if list.contains id then (st, list.length)
    else pushReporter st normalized list id

/-- a sequence of report calls executed against a fresh store; each entry is
the post id, the optional reporter id, and the anonymous-suffix oracle of that
call. -/
def runReports (ops : List (String × Option String × String)) : ReportState :=
  ops.foldl (fun st op => (incrementReportCount st op.1 op.2.1 op.2.2).1) initReportState

/-- the threshold invariant: a post whose stored report list has reached 3 is
on the replaced list. -/
def reportInvariant (st : ReportState) : Prop :=
  ∀ q, 3 ≤ (st.reports q).length → q ∈ st.replaced

theorem addPostToReplaced_reports (st : ReportState) (q : String) :
    (addPostToReplaced st q).reports = st.reports := by
  simp only [addPostToReplaced]
  split_ifs <;> rfl

theorem mem_addPostToReplaced_self (st : ReportState) (q : String) (h : jsTrim q ≠ "") :
    jsTrim q ∈ (addPostToReplaced st q).replaced := by
  simp only [addPostToReplaced]
  rw [if_neg h]
  by_cases hc : st.replaced.contains (jsTrim q) = true
  · rw [if_pos hc]
    exact contains_eq_true_iff.mp hc
  · rw [if_neg hc]
    simp

theorem mem_addPostToReplaced_mono (st : ReportState) (q x : String)
    (h : x ∈ st.replaced) : x ∈ (addPostToReplaced st q).replaced := by
  simp only [addPostToReplaced]
  split_ifs <;> simp [h]

theorem reportInvariant_pushReporter (st : ReportState) (normalized id : String)
    (hn : normalized ≠ "") (hkey : jsTrim normalized = normalized)
    (h : reportInvariant st) :
    reportInvariant (pushReporter st normalized (st.reports normalized) id).1 := by
  intro q hq
  simp only [pushReporter] at hq ⊢
  by_cases h3 : 3 ≤ (st.reports normalized ++ [id]).length
  · rw [if_pos h3] at hq ⊢
    rw [addPostToReplaced_reports] at hq
    by_cases hqn : q = normalized
    · subst hqn
      have := mem_addPostToReplaced_self
        ({ st with reports := fun x => if x = q then st.reports q ++ [id] else st.reports x })
        q (by rw [hkey]; exact hn)
      rwa [hkey] at this
    · simp only [if_neg hqn] at hq
      exact mem_addPostToReplaced_mono _ _ _ (h q hq)
  · rw [if_neg h3] at hq ⊢
    by_cases hqn : q = normalized
    · subst hqn
      simp only [if_pos rfl] at hq
      exact absurd hq h3
    · simp only [if_neg hqn] at hq
      exact h q hq

theorem reportInvariant_step (st : ReportState) (p : String) (r : Option String)
    (sfx : String) (h : reportInvariant st) :
    reportInvariant (incrementReportCount st p r sfx).1 := by
  have hanon : strLead ("__anon_" ++ sfx) "__anon_" = true :=
    strLead_append_left sfx (by decide)
  have hkey : jsTrim (jsTrim p) = jsTrim p := jsTrim_idem p
  rcases r with _ | r
  · simp only [incrementReportCount]
    by_cases hn : jsTrim p = ""
    · rw [if_pos hn]
      exact h
    · rw [if_neg hn, if_pos hanon]
      exact reportInvariant_pushReporter st (jsTrim p) _ hn hkey h
  · simp only [incrementReportCount]
    by_cases hn : jsTrim p = ""
    · rw [if_pos hn]
      exact h
    · rw [if_neg hn]
      by_cases he : (jsTrim r != "") = true
      · rw [if_pos he]
        by_cases ha : strLead (jsTrim r) "__anon_" = true
        · rw [if_pos ha]
          exact reportInvariant_pushReporter st (jsTrim p) _ hn hkey h
        · rw [if_neg ha]
          by_cases hc : (st.reports (jsTrim p)).contains (jsTrim r) = true
          · rw [if_pos hc]
            exact h
          · rw [if_neg hc]
            exact reportInvariant_pushReporter st (jsTrim p) _ hn hkey h
      · rw [if_neg he, if_pos hanon]
        exact reportInvariant_pushReporter st (jsTrim p) _ hn hkey h

theorem runReports_invariant (ops : List (String × Option String × String)) :
    reportInvariant (runReports ops) := by
  have main : ∀ (l : List (String × Option String × String)) (st : ReportState),
      reportInvariant st →
      reportInvariant (l.foldl
        (fun st op => (incrementReportCount st op.1 op.2.1 op.2.2).1) st) := by
    intro l
    induction l with
    | nil => intro st h; exact h
    | cons op t ih =>
      intro st h
      exact ih _ (reportInvariant_step st op.1 op.2.1 op.2.2 h)
  exact main ops initReportState (fun q hq => by simp [initReportState] at hq)

theorem pushReporter_spec (st : ReportState) (normalized id : String) :
    (pushReporter st normalized (st.reports normalized) id).1.reports normalized
        = st.reports normalized ++ [id]
    ∧ (pushReporter st normalized (st.reports normalized) id).2
        = (st.reports normalized).length + 1 := by
  simp only [pushReporter]
  constructor
  · by_cases h3 : 3 ≤ (st.reports normalized ++ [id]).length
    · rw [if_pos h3, addPostToReplaced_reports]
      simp
    · rw [if_neg h3]
      simp
  · simp

/-- counterexample to C4 as stated: a reporter id that is non-empty and
distinct but happens to start with the anonymous marker is NOT deduplicated;
the same reporter reporting the same post twice raises the count to 2 and
grows the stored list, where the claim requires the list to stay unchanged and
the existing count of 1 to be returned. -/
theorem claim4_counterexample :
    ((incrementReportCount
        (incrementReportCount initReportState "p" (some "__anon_attacker") "s1").1
        "p" (some "__anon_attacker") "s2").2 = 2)
    ∧ (((incrementReportCount
        (incrementReportCount initReportState "p" (some "__anon_attacker") "s1").1
        "p" (some "__anon_attacker") "s2").1.reports "p").length = 2)
    ∧ (((incrementReportCount initReportState "p" (some "__anon_attacker") "s1").1.reports
        "p").length = 1) := by
  decide

/-- C4 (amended): incrementReportCount counts each distinct non-empty
reporterId that does not begin with the anonymous marker at most once per post
(a repeat leaves the stored list unchanged and returns the existing count);
reports with a missing or empty reporterId, and any reporterId beginning with
the __anon_ marker, always append a fresh entry; and over any sequence of
report calls from a fresh store, a post whose count reaches 3 is on the
replaced list. -/
theorem claim4_report_semantics :
    (∀ (st : ReportState) (p r sfx : String),
        jsTrim p ≠ "" → jsTrim r ≠ "" → strLead (jsTrim r) "__anon_" = false →
        (st.reports (jsTrim p)).contains (jsTrim r) = true →
        incrementReportCount st p (some r) sfx = (st, (st.reports (jsTrim p)).length))
    ∧ (∀ (st : ReportState) (p r sfx : String),
        jsTrim p ≠ "" → jsTrim r ≠ "" → strLead (jsTrim r) "__anon_" = false →
        (st.reports (jsTrim p)).contains (jsTrim r) = false →
        (incrementReportCount st p (some r) sfx).1.reports (jsTrim p)
            = st.reports (jsTrim p) ++ [jsTrim r]
          ∧ (incrementReportCount st p (some r) sfx).2
            = (st.reports (jsTrim p)).length + 1)
    ∧ (∀ (st : ReportState) (p sfx : String),
        jsTrim p ≠ "" →
        (incrementReportCount st p none sfx).1.reports (jsTrim p)
            = st.reports (jsTrim p) ++ ["__anon_" ++ sfx]
          ∧ (incrementReportCount st p none sfx).2 = (st.reports (jsTrim p)).length + 1)
    ∧ (∀ (st : ReportState) (p r sfx : String),
        jsTrim p ≠ "" → jsTrim r = "" →
        (incrementReportCount st p (some r) sfx).2 = (st.reports (jsTrim p)).length + 1)
    ∧ (∀ (st : ReportState) (p r sfx : String),
        jsTrim p ≠ "" → jsTrim r ≠ "" → strLead (jsTrim r) "__anon_" = true →
        (incrementReportCount st p (some r) sfx).2 = (st.reports (jsTrim p)).length + 1)
    ∧ (∀ (ops : List (String × Option String × String)) (q : String),
        3 ≤ ((runReports ops).reports q).length → q ∈ (runReports ops).replaced) := by
  refine ⟨?_, ?_, ?_, ?_, ?_, fun ops q h => runReports_invariant ops q h⟩
  · intro st p r sfx hp hr ha hc
    simp only [incrementReportCount]
    rw [if_neg hp, if_pos (show (jsTrim r != "") = true by simp [hr]),
      if_neg (by simp [ha]), if_pos hc]
  · intro st p r sfx hp hr ha hc
    simp only [incrementReportCount]
    rw [if_neg hp, if_pos (show (jsTrim r != "") = true by simp [hr]),
      if_neg (by simp [ha]), if_neg (by rw [hc]; simp)]
    exact pushReporter_spec st (jsTrim p) (jsTrim r)
  · intro st p sfx hp
    have hanon : strLead ("__anon_" ++ sfx) "__anon_" = true :=
      strLead_append_left sfx (by decide)
    simp only [incrementReportCount]
    rw [if_neg hp, if_pos hanon]
    exact pushReporter_spec st (jsTrim p) ("__anon_" ++ sfx)
  · intro st p r sfx hp he
    have hanon : strLead ("__anon_" ++ sfx) "__anon_" = true :=
      strLead_append_left sfx (by decide)
    simp only [incrementReportCount]
    rw [if_neg hp, if_neg (show ¬((jsTrim r != "") = true) by simp [he]), if_pos hanon]
    exact (pushReporter_spec st (jsTrim p) ("__anon_" ++ sfx)).2
  · intro st p r sfx hp hr ha
    simp only [incrementReportCount]
    rw [if_neg hp, if_pos (show (jsTrim r != "") = true by simp [hr]), if_pos ha]
    exact (pushReporter_spec st (jsTrim p) (jsTrim r)).2

/-- witness for C4 (amended): a repeated identified report is a no-op, an
anonymous report increments, and three distinct reporters put the post on the
replaced list. -/
theorem claim4_witness :
    (incrementReportCount
        (incrementReportCount initReportState "p" (some "alice") "s1").1
        "p" (some "alice") "s2")
      = ((incrementReportCount initReportState "p" (some "alice") "s1").1,
         (((incrementReportCount initReportState "p" (some "alice") "s1").1).reports
            (jsTrim "p")).length)
    ∧ (incrementReportCount initReportState "p" none "s1").2
        = (initReportState.reports (jsTrim "p")).length + 1
    ∧ "p" ∈ (runReports
        [("p", some "a", "x"), ("p", some "b", "y"), ("p", some "c", "z")]).replaced :=
  ⟨claim4_report_semantics.1 _ "p" "alice" "s2" (by decide) (by decide) (by decide) (by decide),
   (claim4_report_semantics.2.2.1 initReportState "p" "s1" (by decide)).2,
   claim4_report_semantics.2.2.2.2.2
     [("p", some "a", "x"), ("p", some "b", "y"), ("p", some "c", "z")] "p" (by decide)⟩

/-! ### The quiz cache, the skip list, and the /api/quiz candidate loop -/

/-- the redis keyspace holding cached quizzes; a stored value is the typed
quiz (the JSON round trip of the source cannot fail on values the server
itself wrote). -/
def KVStore : Type := String → Option (List QuizQuestion)

/-- getDailyCacheKey from src/server/core/quizCache.ts; dateStr is the
resolved date (the optional date argument, defaulting to the current ISO
day). -/
def getDailyCacheKey (subreddit dateStr : String) : String :=
  "quiz:" ++ subreddit ++ ":" ++ dateStr

/-- getCachedQuiz from src/server/core/quizCache.ts over the typed store. -/
def getCachedQuiz (kv : KVStore) (subreddit dateStr : String) :
    Option (List QuizQuestion) :=
  kv (getDailyCacheKey subreddit dateStr)

/-- the underlying redis set call made by cacheQuiz, which may fail
transiently; the writeFails oracle decides the outcome. -/
def redisSetQuiz (writeFails : Bool) (kv : KVStore) (key : String)
    (quizData : List QuizQuestion) : Except String KVStore :=
  if writeFails then .error "redis set failed"
  else .ok (fun k => if k = key then some quizData else kv k)

/-- cacheQuiz from src/server/core/quizCache.ts: attempt the store write and
catch any failure, only logging it; the function itself always returns
normally (the catch block deliberately does not rethrow). -/
def cacheQuiz (writeFails : Bool) (kv : KVStore) (subreddit : String)
    (quizData : List QuizQuestion) (dateStr : String) : Except String KVStore :=
  match redisSetQuiz writeFails kv (getDailyCacheKey subreddit dateStr) quizData with
  | .ok kv2 => .ok kv2
  | .error _ => .ok kv

/-- the store state after an awaited cacheQuiz call. -/
def applyCacheQuiz (writeFails : Bool) (kv : KVStore) (subreddit : String)
    (quizData : List QuizQuestion) (dateStr : String) : KVStore :=
  match cacheQuiz writeFails kv subreddit quizData dateStr with
  | .ok kv2 => kv2
  | .error _ => kv

/-- addSubredditToSkipList from src/server/core/quizCache.ts: trim the
community name, ignore empty names and names already present, otherwise
append. -/
def addSubredditToSkipList (skips : List String) (subreddit : String) : List String :=
  let normalized := jsTrim subreddit
  if normalized = "" then skips
  else if skips.contains normalized then skips
  else skips ++ [normalized]

/-- the observable result of one /api/quiz request: a served quiz with the
community it came from, the 404 insufficient-data response of the explicit
path, a typed error response, or the 503 issued when rotation is exhausted
(or no candidate exists). -/
inductive Outcome where
  | served : List QuizQuestion → String → Outcome
  | insufficientData : String → Outcome
  | typedError : String → Outcome
  | unavailable : Outcome
deriving DecidableEq

/-- the store state a request reads and writes: the quiz cache and the skip
list. -/
structure RouteState where
  kv : KVStore
  skips : List String

/-- the per-request oracles of the /api/quiz handler: the Reddit fetch
(fetchQuizData) result per community, the cache-write failure oracle, the
replaced-posts list read at substitution time, the posts and comments the
replacement fetch would see per community, and the resolved date. -/
structure RouteEnv where
  fetchR : String → Except String (List QuizQuestion)
  writeFails : String → Bool
  replacedIds : List String
  availPosts : String → List RPost
  cmOf : String → CommentsMap
  dateStr : String

/-- the candidate loop of the /api/quiz handler (src/server/index.ts): for
each candidate community, serve the substituted cached quiz when a nonempty
one exists; otherwise fetch, and on an empty result or an unavailable-class
error in daily mode add the community to the skip list and continue, while
any other failure (or non-daily mode) produces an error response; a fetched
nonempty quiz is cached best-effort and served after substitution; running
out of candidates yields the 503 unavailable response. -/
def quizLoop (daily : Bool) (env : RouteEnv) :
    RouteState → List String → Outcome × RouteState
  | st, [] => (.unavailable, st)
  | st, c :: rest =>
    match (match getCachedQuiz st.kv c env.dateStr with
           | some q => if 0 < q.length then some q else none
           | none => none) with
    | some q =>
      (.served (substituteReplaced (env.availPosts c) (env.cmOf c) env.replacedIds q) c, st)
    | none =>
      match env.fetchR c with
      | .ok qs =>
        if qs.length = 0 then
          if daily then quizLoop daily env ⟨st.kv, addSubredditToSkipList st.skips c⟩ rest
          else (.insufficientData c, st)
        else
          (.served (substituteReplaced (env.availPosts c) (env.cmOf c) env.replacedIds qs) c,
           ⟨applyCacheQuiz (env.writeFails c) st.kv c qs env.dateStr, st.skips⟩)
      | .error msg =>
        if daily && isUnavailableMessage msg then
          quizLoop daily env ⟨st.kv, addSubredditToSkipList st.skips c⟩ rest
        else (.typedError msg, st)

/-- the /api/quiz entry around the loop: in daily mode the rotation order is
filtered through the skip list first, and an empty candidate list is an
immediate 503. -/
def quizRoute (daily : Bool) (env : RouteEnv) (kv : KVStore) (skips : List String)
    (rotation : List String) : Outcome × RouteState :=
  let candidates := if daily then rotation.filter (fun c => !skips.contains c) else rotation
  if candidates.isEmpty then (.unavailable, ⟨kv, skips⟩)
  else quizLoop daily env ⟨kv, skips⟩ candidates

/-- the candidate has no servable cache entry: nothing stored, or an empty
list stored. -/
def cacheNotServable (kv : KVStore) (dateStr c : String) : Prop :=
  (getCachedQuiz kv c dateStr).getD [] = []

/-- the fetch for the candidate fails in the unavailable class: either an
error whose message the route classifies as unavailable, or a result with no
questions. -/
def fetchUnavailable (fetchR : String → Except String (List QuizQuestion))
    (c : String) : Prop :=
  match fetchR c with
  | .error m => isUnavailableMessage m = true
  | .ok qs => qs = []

theorem mem_addSubredditToSkipList (skips : List String) (c : String)
    (h : jsTrim c ≠ "") : jsTrim c ∈ addSubredditToSkipList skips c := by
  simp only [addSubredditToSkipList]
  rw [if_neg h]
  by_cases hc : skips.contains (jsTrim c) = true
  · rw [if_pos hc]
    exact contains_eq_true_iff.mp hc
  · rw [if_neg hc]
    simp

theorem quizLoop_skip_step (daily : Bool) (env : RouteEnv) (st : RouteState)
    (c : String) (rest : List String)
    (hcache : cacheNotServable st.kv env.dateStr c)
    (hfail : fetchUnavailable env.fetchR c) (hdaily : daily = true) :
    quizLoop daily env st (c :: rest)
      = quizLoop daily env ⟨st.kv, addSubredditToSkipList st.skips c⟩ rest := by
  subst hdaily
  have hnone : (match getCachedQuiz st.kv c env.dateStr with
      | some q => if 0 < q.length then some q else none
      | none => none) = (none : Option (List QuizQuestion)) := by
    unfold cacheNotServable at hcache
    rcases hq : getCachedQuiz st.kv c env.dateStr with _ | q
    · rfl
    · rw [hq] at hcache
      simp only [Option.getD_some] at hcache
      subst hcache
      simp
  unfold fetchUnavailable at hfail
  rcases hf : env.fetchR c with msg | qs
  · rw [hf] at hfail
    simp only [quizLoop, hnone, hf]
    rw [if_pos (by simp [hfail])]
  · rw [hf] at hfail
    subst hfail
    simp only [quizLoop, hnone, hf]
    simp

/-- C7: in daily-rotation mode, a candidate whose fetch fails with an
unavailable-class error or produces no questions (and that has no servable
cache entry) is added to the skip list and the loop moves on to the next
rotation candidate without emitting any response; and when every candidate
fails that way, the one error produced is the exhausted-rotation 503. -/
theorem claim7_rotation_fallback :
    (∀ (env : RouteEnv) (st : RouteState) (c : String) (rest : List String),
        cacheNotServable st.kv env.dateStr c →
        fetchUnavailable env.fetchR c →
        quizLoop true env st (c :: rest)
          = quizLoop true env ⟨st.kv, addSubredditToSkipList st.skips c⟩ rest
        ∧ (jsTrim c ≠ "" → jsTrim c ∈ addSubredditToSkipList st.skips c))
    ∧ (∀ (env : RouteEnv) (st : RouteState) (candidates : List String),
        (∀ c ∈ candidates,
          cacheNotServable st.kv env.dateStr c ∧ fetchUnavailable env.fetchR c) →
        (quizLoop true env st candidates).1 = Outcome.unavailable) := by
  constructor
  · intro env st c rest hc hf
    exact ⟨quizLoop_skip_step true env st c rest hc hf rfl,
      fun hne => mem_addSubredditToSkipList st.skips c hne⟩
  · intro env st candidates
    induction candidates generalizing st with
    | nil => intro _; rfl
    | cons c rest ih =>
      intro h
      obtain ⟨hc, hf⟩ := h c (List.mem_cons_self c rest)
      rw [quizLoop_skip_step true env st c rest hc hf rfl]
      exact ih ⟨st.kv, addSubredditToSkipList st.skips c⟩
        (fun x hx => h x (List.mem_cons_of_mem _ hx))

/-- an empty quiz cache. -/
def exKv : KVStore := fun _ => none

/-- a request environment in which every community fetch throws a 403. -/
def exEnvBanned : RouteEnv :=
  { fetchR := fun _ => .error "403 Forbidden"
    writeFails := fun _ => false
    replacedIds := []
    availPosts := fun _ => []
    cmOf := fun _ => fun _ => []
    dateStr := "2024-01-01" }

/-- witness for C7: a banned community is skipped in favor of the next
rotation candidate, and exhausting the rotation yields the 503. -/
theorem claim7_witness :
    (quizLoop true exEnvBanned ⟨exKv, []⟩ ["bannedsub", "nextsub"]
        = quizLoop true exEnvBanned ⟨exKv, addSubredditToSkipList [] "bannedsub"⟩ ["nextsub"]
      ∧ (jsTrim "bannedsub" ≠ "" →
          jsTrim "bannedsub" ∈ addSubredditToSkipList [] "bannedsub"))
    ∧ (quizLoop true exEnvBanned ⟨exKv, []⟩ ["bannedsub", "nextsub"]).1
        = Outcome.unavailable :=
  ⟨claim7_rotation_fallback.1 exEnvBanned ⟨exKv, []⟩ "bannedsub" ["nextsub"] rfl
     (by show isUnavailableMessage "403 Forbidden" = true; decide),
   claim7_rotation_fallback.2 exEnvBanned ⟨exKv, []⟩ ["bannedsub", "nextsub"]
     (fun c _ => ⟨rfl, by show isUnavailableMessage "403 Forbidden" = true; decide⟩)⟩

theorem cacheMatch_none {kv : KVStore} {dateStr c : String}
    (h : cacheNotServable kv dateStr c) :
    (match getCachedQuiz kv c dateStr with
     | some q => if 0 < q.length then some q else none
     | none => none) = (none : Option (List QuizQuestion)) := by
  unfold cacheNotServable at h
  rcases hq : getCachedQuiz kv c dateStr with _ | q
  · rfl
  · rw [hq] at h
    simp only [Option.getD_some] at h
    subst h
    simp

/-- C9: cacheQuiz never propagates a store-write failure: it returns normally
for every input, a failed write leaves the store untouched, and the /api/quiz
request that triggered the write still serves the freshly generated quiz no
matter what the write oracle does. -/
theorem claim9_cache_write_swallowed :
    (∀ (writeFails : Bool) (kv : KVStore) (subreddit : String)
        (quizData : List QuizQuestion) (dateStr : String),
        ∃ kv2, cacheQuiz writeFails kv subreddit quizData dateStr = Except.ok kv2)
    ∧ (∀ (kv : KVStore) (subreddit : String) (quizData : List QuizQuestion)
        (dateStr : String),
        cacheQuiz true kv subreddit quizData dateStr = Except.ok kv)
    ∧ (∀ (daily : Bool) (env : RouteEnv) (st : RouteState) (c : String)
        (rest : List String) (qs : List QuizQuestion),
        cacheNotServable st.kv env.dateStr c →
        env.fetchR c = Except.ok qs → qs ≠ [] →
        (quizLoop daily env st (c :: rest)).1
          = Outcome.served
              (substituteReplaced (env.availPosts c) (env.cmOf c) env.replacedIds qs) c) := by
  refine ⟨?_, ?_, ?_⟩
  · intro wf kv sub qd dateStr
    rcases wf
    · exact ⟨_, rfl⟩
    · exact ⟨kv, rfl⟩
  · intro kv sub qd dateStr
    rfl
  · intro daily env st c rest qs hc hf hne
    simp only [quizLoop, cacheMatch_none hc, hf]
    rw [if_neg (by simpa [List.length_eq_zero] using hne)]

/-- a request environment whose fetch succeeds with one question while every
cache write fails. -/
def exEnvOkFailWrite : RouteEnv :=
  { fetchR := fun _ => .ok [exBadQuestion]
    writeFails := fun _ => true
    replacedIds := []
    availPosts := fun _ => []
    cmOf := fun _ => fun _ => []
    dateStr := "2024-01-01" }

/-- witness for C9: a failing write is swallowed with the store unchanged,
and the request still serves the freshly fetched quiz. -/
theorem claim9_witness :
    cacheQuiz true exKv "test" [] "2024-01-01" = Except.ok exKv
    ∧ (quizLoop true exEnvOkFailWrite ⟨exKv, []⟩ ["test"]).1
        = Outcome.served
            (substituteReplaced (exEnvOkFailWrite.availPosts "test")
              (exEnvOkFailWrite.cmOf "test") exEnvOkFailWrite.replacedIds
              [exBadQuestion]) "test" :=
  ⟨claim9_cache_write_swallowed.2.1 exKv "test" [] "2024-01-01",
   claim9_cache_write_swallowed.2.2 true exEnvOkFailWrite ⟨exKv, []⟩ "test" []
     [exBadQuestion] rfl rfl (by decide)⟩

/-! ### The rotation selector (src/shared/types/api.ts) -/

/-- APPROVED_SUBREDDITS from src/shared/types/api.ts. -/
def APPROVED_SUBREDDITS : List String :=
  ["BrandNewSentence", "technicallythetruth", "ihadastroke", "rareinsults",
   "PointlessStories", "FirstWorldProblems", "Unexpected", "CrappyDesign",
   "therewasanattempt"]

/-- getDailySubredditForDate from src/shared/types/api.ts, with the
day-of-year computation (floor of the millisecond difference to the start of
the year) abstracted into the dayOfYear argument, as both callers compute it
identically. -/
def getDailySubredditForDate (dayOfYear : Nat) : String :=
  APPROVED_SUBREDDITS.getD (dayOfYear % APPROVED_SUBREDDITS.length) ""

/-- getDailySubreddit from src/shared/types/api.ts: a truthy override that is
on the approved list wins, otherwise the deterministic day-of-year choice is
used. -/
def getDailySubreddit (override : Option String) (dayOfYear : Nat) : String :=
  match override with
  | some o =>
    if (o != "") && APPROVED_SUBREDDITS.contains o then o
    else getDailySubredditForDate dayOfYear
  | none => getDailySubredditForDate dayOfYear

/-- getSubredditsInRotationOrder from src/shared/types/api.ts: all N approved
communities starting at the day-of-year index and wrapping around (the source
reduces the day modulo N twice; both reductions are kept). -/
def getSubredditsInRotationOrder (dayOfYear : Nat) : List String :=
  let startIndex := dayOfYear % APPROVED_SUBREDDITS.length % APPROVED_SUBREDDITS.length
  (List.range APPROVED_SUBREDDITS.length).map
    (fun i => APPROVED_SUBREDDITS.getD ((startIndex + i) % APPROVED_SUBREDDITS.length) "")

theorem rotation_order_helper :
    ∀ n : Nat, n < 9 →
      (List.range 9).map (fun i => APPROVED_SUBREDDITS.getD ((n + i) % 9) "")
          = APPROVED_SUBREDDITS.rotate n
        ∧ ((List.range 9).map
            (fun i => APPROVED_SUBREDDITS.getD ((n + i) % 9) "")).head?
            = some (APPROVED_SUBREDDITS.getD n "") := by
  intro n hn
  interval_cases n <;> exact ⟨by decide, by decide⟩

/-- C8: for every day, getSubredditsInRotationOrder is exactly the approved
list rotated to start at the day-of-year index, hence a permutation of the
full approved list whose first element is that day's daily subreddit, with
the rest following in cyclic wrapping order. -/
theorem claim8_rotation_order :
    ∀ dayOfYear : Nat,
      getSubredditsInRotationOrder dayOfYear
          = APPROVED_SUBREDDITS.rotate (dayOfYear % APPROVED_SUBREDDITS.length)
        ∧ (getSubredditsInRotationOrder dayOfYear).Perm APPROVED_SUBREDDITS
        ∧ (getSubredditsInRotationOrder dayOfYear).head?
            = some (getDailySubredditForDate dayOfYear) := by
  intro d
  have hlen : APPROVED_SUBREDDITS.length = 9 := by decide
  have hmm : d % 9 % 9 = d % 9 := by omega
  have hnorm : getSubredditsInRotationOrder d
      = (List.range 9).map (fun i => APPROVED_SUBREDDITS.getD ((d % 9 + i) % 9) "") := by
    simp only [getSubredditsInRotationOrder, hlen, hmm]
  have hlt : d % 9 < 9 := Nat.mod_lt _ (by omega)
  obtain ⟨h1, h2⟩ := rotation_order_helper (d % 9) hlt
  refine ⟨?_, ?_, ?_⟩
  · rw [hnorm, hlen, h1]
  · rw [hnorm, h1]
    exact List.rotate_perm APPROVED_SUBREDDITS (d % 9)
  · rw [hnorm, h2, getDailySubredditForDate, hlen]

/-- C10: getDailySubreddit returns the override exactly when it is on the
approved list; any other override, and the absent override, fall back to the
deterministic day-of-year choice; the result is always an approved
community. -/
theorem claim10_override :
    (∀ (o : String) (d : Nat), APPROVED_SUBREDDITS.contains o = true →
        getDailySubreddit (some o) d = o)
    ∧ (∀ (o : String) (d : Nat), APPROVED_SUBREDDITS.contains o = false →
        getDailySubreddit (some o) d = getDailySubredditForDate d)
    ∧ (∀ d : Nat, getDailySubreddit none d = getDailySubredditForDate d)
    ∧ (∀ (ov : Option String) (d : Nat),
        APPROVED_SUBREDDITS.contains (getDailySubreddit ov d) = true) := by
  have hdaily : ∀ d : Nat, APPROVED_SUBREDDITS.contains (getDailySubredditForDate d) = true := by
    intro d
    have hlt : d % 9 < 9 := Nat.mod_lt _ (by omega)
    have hlen : APPROVED_SUBREDDITS.length = 9 := by decide
    rw [getDailySubredditForDate, hlen]
    refine contains_eq_true_iff.mpr ?_
    rw [List.getD_eq_getElem _ _ (by rw [hlen]; exact hlt)]
    exact List.getElem_mem _
  refine ⟨?_, ?_, fun d => rfl, ?_⟩
  · intro o d h
    have hne : o ≠ "" := by
      intro heq
      rw [heq] at h
      exact absurd h (by decide)
    simp only [getDailySubreddit]
    rw [if_pos (by simp [hne, contains_eq_true_iff.mp h])]
  · intro o d h
    have hnm : o ∉ APPROVED_SUBREDDITS := fun hm =>
      Bool.true_eq_false.mp ((contains_eq_true_iff.mpr hm).symm.trans h)
    simp only [getDailySubreddit]
    rw [if_neg (by simp [hnm])]
  · intro ov d
    rcases ov with _ | o
    · exact hdaily d
    · simp only [getDailySubreddit]
      by_cases hcond : ((o != "") && APPROVED_SUBREDDITS.contains o) = true
    
      · rw [if_pos hcond]
        exact (Bool.and_eq_true _ _ |>.mp hcond).2
      · rw [if_neg hcond]
        exact hdaily d

/-- witness for C10: an approved override is honored, an unknown override is
ignored. -/
theorem claim10_witness :
    getDailySubreddit (some "Unexpected") 0 = "Unexpected"
    ∧ getDailySubreddit (some "notapproved") 7 = getDailySubredditForDate 7 :=
  ⟨claim10_override.1 "Unexpected" 0 (by decide),
   claim10_override.2.1 "notapproved" 7 (by decide)⟩
